import Mathlib

/-!
Verification development for the sector-allocation portfolio tracker
(`gui-component.py` and `portfolio_tracker_cli.py`).

The holdings table is embedded as a list of records with the canonical
column set (Symbol, Company, Sector, Shares, Current Price, Total Value,
Last Updated); numeric columns are embedded as rationals (the claims speak
of values "within floating rounding", so exact arithmetic stands in for
IEEE floats).  The market-data provider (`yfinance`) is embedded as an
oracle `String → Except Unit Ticker`: `Except.error` models an exception
raised inside the `try` block, and each `Option` field models
`ticker.info.get(...)` returning a value or `None`.  Timestamps are opaque
strings supplied by the caller (`datetime.now().strftime(...)`).
-/

namespace PortfolioTracker

/-- Prefix test on character lists, written out directly so that its
induction principle is available to the lemmas below. -/
def isPre : List Char → List Char → Bool
  | [], _ => true
  | _ :: _, [] => false
  | a :: n, b :: h => a = b && isPre n h

/-- The Python `in` operator on strings: contiguous-substring containment. -/
def containsSub (n : List Char) : List Char → Bool
  | [] => n.isEmpty
  | b :: t => isPre n (b :: t) || containsSub n t

/-- Containment `needle in hay` on Python strings. -/
def pyIn (needle hay : String) : Bool := containsSub needle.data hay.data

/-- Python lowercasing `str.lower()`; the source only compares ASCII keywords, for which
`Char.toLower` agrees with Python. -/
def pyLower (s : String) : String := ⟨s.data.map Char.toLower⟩

/-- Python `symbol.endswith(c)` for a one-character suffix. -/
def lastIs (s : String) (c : Char) : Bool := s.data.getLast? == some c

/-- Truthiness of an optional float (`if price:` in Python): `None` and
`0.0` are falsy, everything else truthy. -/
def truthyQ : Option ℚ → Bool
  | none => false
  | some q => q != 0

/-- Banker rounding (round half to even) to an integer, the rule used by `numpy`/pandas
`.round`.  The floor is written with `Int.fdiv` (the denominator of a
rational is positive) so that the function evaluates by kernel
reduction. -/
def roundHalfEven (x : ℚ) : ℤ :=
  let f : ℤ := x.num.fdiv x.den
  let r := x - (f : ℚ)
  if r < 1 / 2 then f
  else if 1 / 2 < r then f + 1
  else if f % 2 = 0 then f else f + 1

/-- Code-point lexicographic comparison of strings — the order Python
comparisons and pandas key sorts use. -/
def strLt (a b : String) : Prop := List.Lex (· < ·) a.data b.data

instance : DecidableRel strLt := fun a b =>
  List.Lex.decidableRel (· < ·) a.data b.data

/-- Non-strict code-point lexicographic order on strings. -/
def strLe (a b : String) : Prop := strLt a b ∨ a = b

instance : DecidableRel strLe := fun a b =>
  inferInstanceAs (Decidable (strLt a b ∨ a = b))

/-- pandas `.round(2)`. -/
def round2 (x : ℚ) : ℚ := (roundHalfEven (x * 100) : ℚ) / 100

/-- One row of the holdings table, with the canonical column set. -/
structure Holding where
  symbol : String
  company : String
  sector : String
  shares : ℚ
  currentPrice : ℚ
  totalValue : ℚ
  lastUpdated : Option String
  deriving Repr, DecidableEq

/-- The fields of a `yfinance` ticker the program reads: the `info`
dictionary entries and the one-day price history (close column of the `history` call). -/
structure Ticker where
  currentPrice : Option ℚ
  regularMarketPrice : Option ℚ
  previousClose : Option ℚ
  quoteType : Option String
  shortName : Option String
  history : List ℚ
  deriving Repr, DecidableEq

/-- Embedding of `PortfolioService.get_price` (gui-component.py lines 260-286; the CLI
`get_price` at portfolio_tracker_cli.py lines 5-36 is line-for-line the
same chain): `currentPrice`, then `regularMarketPrice`, then the last
close of the one-day history whenever the history is nonempty, then
`previousClose`; a raised exception yields `None`. -/
def get_price (fetched : Except Unit Ticker) : Option ℚ :=
  match fetched with
  | .error _ => none
  | .ok t =>
    if truthyQ t.currentPrice then t.currentPrice
    else if truthyQ t.regularMarketPrice then t.regularMarketPrice
    else
      match t.history.getLast? with
      | some c => some c
      | none => if truthyQ t.previousClose then t.previousClose else none

/-- Embedding of `PortfolioService.update_portfolio_prices` (gui-component.py lines
322-343; same loop in portfolio_tracker_cli.py lines 84-105).  The table
carries the canonical column set, so the add-missing-columns preamble of
the source is the identity here.  Each iteration touches only its own row;
`if price:` makes both a `None` result and a `0` result skip the row. -/
def update_portfolio_prices (quote : String → Except Unit Ticker)
    (now : String) (df : List Holding) : List Holding :=
  if df = [] then df
  else
    df.map fun row =>
      match get_price (quote row.symbol) with
      | some price =>
        if price = 0 then row
        else { row with currentPrice := price, totalValue := price * row.shares,
                        lastUpdated := some now }
      | none => row

/-- Embedding of `PortfolioService.get_security_type` (gui-component.py lines 202-225),
translated clause by clause: each branch tests the lowercased quote type
OR the symbol suffix, and any exception yields `"Stock"`.  (The literal
`"mutualFund"` is searched inside an already lowercased string, exactly as
in the source.) -/
def get_security_type (symbol : String) (fetched : Except Unit Ticker) : String :=
  match fetched with
  | .error _ => "Stock"
  | .ok t =>
    let qt := pyLower (t.quoteType.getD (""))
    if pyIn ("etf") qt || lastIs symbol ('F') then "ETF"
    else if pyIn ("mutualFund") qt || lastIs symbol ('X') then "Mutual Fund"
    else if pyIn ("index") qt then "Index"
    else "Stock"

/-- Embedding of `PortfolioService.get_etf_sector_classification` (gui-component.py
lines 227-258): keyword buckets tried in the written order on the
lowercased short name; a missing short name is the empty string; any
exception yields `"ETF"`. -/
def get_etf_sector_classification (fetched : Except Unit Ticker) : String :=
  match fetched with
  | .error _ => "ETF"
  | .ok t =>
    let name := pyLower (t.shortName.getD (""))
    if [("bond"), ("treasury"), ("income")].any (fun term => pyIn term name) then "Bond ETF"
    else if [("nasdaq"), ("tech"), ("technology")].any (fun term => pyIn term name) then "Technology ETF"
    else if [("s&p"), ("sp500"), ("500"), ("total market")].any (fun term => pyIn term name) then "Index ETF"
    else if [("health"), ("healthcare")].any (fun term => pyIn term name) then "Healthcare ETF"
    else if [("energy"), ("oil"), ("gas")].any (fun term => pyIn term name) then "Energy ETF"
    else if [("financial"), ("bank")].any (fun term => pyIn term name) then "Financial ETF"
    else if [("dividend"), ("yield")].any (fun term => pyIn term name) then "Dividend ETF"
    else if [("growth")].any (fun term => pyIn term name) then "Growth ETF"
    else if [("value")].any (fun term => pyIn term name) then "Value ETF"
    else if [("bitcoin"), ("crypto")].any (fun term => pyIn term name) then "Crypto ETF"
    else "ETF"

/-- One row of the derived sector-allocation table (columns Sector,
Total Value, Percentage). -/
structure SectorRow where
  sector : String
  totalValue : ℚ
  percentage : ℚ
  deriving Repr, DecidableEq

/-- Comparison used by the percentage-column sort. -/
def pctLe (a b : SectorRow) : Prop := a.percentage ≤ b.percentage

instance : DecidableRel pctLe := fun a b =>
  inferInstanceAs (Decidable (a.percentage ≤ b.percentage))

/-- The distinct sector labels of the table in ascending order:
the pandas groupby on the Sector column sorts its group keys
ascending by default. -/
def sectorKeysSorted (df : List Holding) : List String :=
  List.insertionSort strLe (df.map (·.sector)).dedup

/-- The grouped Total-Value sum aggregate for one sector key. -/
def groupSum (df : List Holding) (s : String) : ℚ :=
  ((df.filter (fun r => r.sector = s)).map (·.totalValue)).sum

/-- The sum of the Total Value column of the whole table. -/
def totalValueSum (df : List Holding) : ℚ := (df.map (·.totalValue)).sum

/-- The `sort_values` call on the Percentage column with
`ascending=False` and the default quicksort kind.  For a descending sort
`pandas.core.sorting.nargsort` reverses the value array and the index
array BEFORE the argsort and reverses the resulting indexer AFTER it, so
the descending sort is reverse-sort-reverse of the row list; the numpy
introsort runs as a plain insertion sort — hence stable — on the small
arrays a sector table produces (fewer than 16 groups).  The double
reversal around a stable ascending sort preserves the original relative
order of rows with equal percentage. -/
def sortPercentageDesc (rows : List SectorRow) : List SectorRow :=
  (List.insertionSort pctLe rows.reverse).reverse

/-- Embedding of `PortfolioService.calculate_sector_allocation` (gui-component.py lines
345-362): empty-table guard, group-sum by sector, zero-safe percentage
(`if total_portfolio > 0` else a constant 0 column), descending sort.
The canonical column set makes the missing-column arm of the guard
vacuous here. -/
def calculate_sector_allocation (df : List Holding) : List SectorRow :=
  if df = [] then []
  else
    let total := totalValueSum df
    let rows := (sectorKeysSorted df).map fun s =>
      { sector := s, totalValue := groupSum df s,
        percentage := if total > 0 then round2 (groupSum df s / total * 100) else 0 }
    sortPercentageDesc rows

/-- A sector row of the CLI report; `percentage` is `none` when the float
division `total_value / total * 100` is not a finite well-defined number
(the `NaN` produced by `0.0 / 0.0`, or an infinity). -/
structure CliSectorRow where
  sector : String
  totalValue : ℚ
  percentage : Option ℚ
  deriving Repr, DecidableEq

/-- Comparison on the finite percentages of the CLI rows. -/
def cliPctLe (a b : CliSectorRow) : Prop := a.percentage.getD 0 ≤ b.percentage.getD 0

instance : DecidableRel cliPctLe := fun a b =>
  inferInstanceAs (Decidable (a.percentage.getD 0 ≤ b.percentage.getD 0))

/-- The CLI descending percentage sort: non-NaN rows sorted with the same
reverse-stable-sort-reverse scheme `nargsort` uses (see
`sortPercentageDesc`), NaN rows placed last (the pandas default places
NaN rows last). -/
def cliSortPercentageDesc (rows : List CliSectorRow) : List CliSectorRow :=
  (List.insertionSort cliPctLe (rows.filter (·.percentage.isSome)).reverse).reverse
    ++ rows.filter (·.percentage.isNone)

/-- Embedding of `calculate_sector_allocation` of portfolio_tracker_cli.py (lines
107-117): same grouping and sort as the GUI version but the percentage
column divides by the portfolio total unconditionally — no empty-table
guard and no zero-total guard. -/
def cli_calculate_sector_allocation (df : List Holding) : List CliSectorRow :=
  let total := totalValueSum df
  let rows := (sectorKeysSorted df).map fun s =>
    { sector := s, totalValue := groupSum df s,
      percentage := if total = 0 then none
                    else some (round2 (groupSum df s / total * 100)) }
  cliSortPercentageDesc rows

/-- The fields the add-position dialog hands back
(`StockSearchDialog.get_position_data`, gui-component.py lines 144-157):
symbol, name, sector and price resolved by the search, the share count
from the spin box, and the wall-clock timestamp. -/
structure PositionData where
  symbol : String
  company : String
  sector : String
  shares : ℚ
  price : ℚ
  timestamp : String
  deriving Repr, DecidableEq

/-- Embedding of `get_position_data`: builds the new row; `Total Value` is computed as
`price * shares` right there (line 155). -/
def get_position_data (p : PositionData) : Holding :=
  { symbol := p.symbol, company := p.company, sector := p.sector,
    shares := p.shares, currentPrice := p.price, totalValue := p.price * p.shares,
    lastUpdated := some p.timestamp }

/-- The three buttons of the duplicate-symbol dialog in `add_position`. -/
inductive MergeChoice where
  | update
  | addNew
  | cancel
  deriving Repr, DecidableEq

/-- The `Update` branch of `add_position` (gui-component.py lines
513-519): at the first index whose symbol matches, overwrite Shares,
Current Price, Total Value and Last Updated from the dialog data, keeping
Company and Sector. -/
def updateFirstMatching (h : Holding) : List Holding → List Holding
  | [] => []
  | r :: rest =>
    if r.symbol = h.symbol then
      { r with shares := h.shares, currentPrice := h.currentPrice,
               totalValue := h.totalValue, lastUpdated := h.lastUpdated } :: rest
    else r :: updateFirstMatching h rest

/-- Embedding of `PortfolioOverviewTab.add_position` (gui-component.py lines 490-534),
with the outcome of the modal dialog passed in as `choice`: a fresh symbol is
appended; an existing symbol is updated in place, appended as a duplicate,
or left alone, according to the button clicked. -/
def add_position (df : Option (List Holding)) (p : PositionData)
    (choice : MergeChoice) : List Holding :=
  let pos := get_position_data p
  match df with
  | none => [pos]
  | some df =>
    if (df.filter (fun r => r.symbol = pos.symbol)) ≠ [] then
      match choice with
      | .update => updateFirstMatching pos df
      | .addNew => df ++ [pos]
      | .cancel => df
    else df ++ [pos]

/-- What `self.portfolio_df` holds: normally a DataFrame, but after the
self-assignment on gui-component.py line 724 it is the
`PortfolioOverviewTab` widget object itself. -/
inductive DfHolder where
  | table (t : List Holding)
  | widget
  deriving Repr, DecidableEq

/-- Embedding of `PortfolioService.save_portfolio` (gui-component.py lines 288-298)
against an on-disk store: serializing a DataFrame overwrites the store and
returns `True`; calling `.to_json` on the widget object raises, the
`except` arm returns `False`, and the store file is left as it was. -/
def save_portfolio (store : List Holding) (h : DfHolder) : Bool × List Holding :=
  match h with
  | .table t => (true, t)
  | .widget => (false, store)

/-- The `has_full_info` branch of
`PortfolioOverviewTab.process_imported_data` (gui-component.py lines
715-729): concatenate the imported rows onto the existing table (line 719
or 721), then line 724 reassigns `self.portfolio_df = self` — the widget
object replaces the merged table — and line 725 saves whatever the holder
now contains.  Returns the final holder, the save result, and the store
contents after the call. -/
def process_imported_data_full (existing : Option (List Holding))
    (imported : List Holding) (store : List Holding) :
    DfHolder × Bool × List Holding :=
  let _merged : List Holding :=
    match existing with
    | some t => if t ≠ [] then t ++ imported else imported
    | none => imported
  let holder : DfHolder := DfHolder.widget
  let saved := save_portfolio store holder
  (holder, saved.1, saved.2)

/-- Modelled from the spec (§4.2 `classify_security` and claim C6): the
metadata-first rule of the spec, against which the source function
`get_security_type` is compared.  The quote-type field is consulted first;
a present, nonempty quote type decides the kind by itself; the trailing
letter conventions apply only when the metadata is absent (or the provider
call failed, which defaults to Stock). -/
def classify_security_spec (symbol : String) (fetched : Except Unit Ticker) : String :=
  match fetched with
  | .error _ => "Stock"
  | .ok t =>
    match t.quoteType with
    | some qt =>
      if qt = "" then
        if lastIs symbol ('F') then "ETF"
        else if lastIs symbol ('X') then "Mutual Fund"
        else "Stock"
      else
        let q := pyLower qt
        if pyIn ("etf") q then "ETF"
        else if pyIn ("mutualfund") q then "Mutual Fund"
        else if pyIn ("index") q then "Index"
        else "Stock"
    | none =>
      if lastIs symbol ('F') then "ETF"
      else if lastIs symbol ('X') then "Mutual Fund"
      else "Stock"

/-- Modelled from the spec (§4.2 `classify_etf_sector` and claim C7): the
explicit ordered rule table of keyword buckets, first match wins, generic
`"ETF"` otherwise. -/
def etfBuckets : List (List String × String) :=
  [ ([("bond"), ("treasury"), ("income")], "Bond ETF"),
    ([("nasdaq"), ("tech")], "Technology ETF"),
    ([("s&p"), ("500"), ("total market")], "Index ETF"),
    ([("health")], "Healthcare ETF"),
    ([("energy"), ("oil"), ("gas")], "Energy ETF"),
    ([("financial"), ("bank")], "Financial ETF"),
    ([("dividend"), ("yield")], "Dividend ETF"),
    ([("growth")], "Growth ETF"),
    ([("value")], "Value ETF"),
    ([("bitcoin"), ("crypto")], "Crypto ETF") ]

/-- First bucket of the rule table one of whose keywords occurs in the
lowercased name; the generic label when none does. -/
def firstBucket (name : String) : List (List String × String) → String
  | [] => "ETF"
  | b :: rest =>
    if b.1.any (fun term => pyIn term (pyLower name)) then b.2
    else firstBucket name rest

/-- Modelled from the spec: `classify_etf_sector` as the first matching
bucket of the explicit ordered rule table `etfBuckets`. -/
def classify_etf_sector_spec (name : String) : String :=
  firstBucket name etfBuckets

/-- The `total_value = current_price * shares` row invariant of the data
model section of the spec. -/
def valueInvariant (df : List Holding) : Prop :=
  ∀ r ∈ df, r.totalValue = r.currentPrice * r.shares

/-- A holding in sector `"A"` worth 50. -/
def hAlpha : Holding :=
  { symbol := "AAA", company := "Alpha Co", sector := "A", shares := 1,
    currentPrice := 50, totalValue := 50, lastUpdated := none }

/-- A holding in sector `"B"` worth 50, tying `hAlpha` on percentage. -/
def hBeta : Holding :=
  { symbol := "BBB", company := "Beta Co", sector := "B", shares := 1,
    currentPrice := 50, totalValue := 50, lastUpdated := none }

/-- A never-priced holding: price and value 0. -/
def hZero : Holding :=
  { symbol := "ZZZ", company := "Zero Co", sector := "Tech", shares := 2,
    currentPrice := 0, totalValue := 0, lastUpdated := none }

/-- A ticker whose metadata unambiguously marks a plain stock. -/
def tEquity : Ticker :=
  { currentPrice := none, regularMarketPrice := none, previousClose := none,
    quoteType := some ("EQUITY"), shortName := none, history := [] }

/-- A ticker named like a Nasdaq technology index fund. -/
def tNasdaqFund : Ticker :=
  { currentPrice := none, regularMarketPrice := none, previousClose := none,
    quoteType := none, shortName := some ("Nasdaq 100 Technology Index Fund"),
    history := [] }

/-- A provider oracle that prices `"AAA"` at 150 and fails on everything
else. -/
def quoteFix : String → Except Unit Ticker := fun s =>
  if s = "AAA" then
    .ok { currentPrice := some 150, regularMarketPrice := none,
          previousClose := none, quoteType := none, shortName := none,
          history := [] }
  else .error ()

/-- A ticker carrying only price data: the three `info` price fields and
the one-day history. -/
def mkTicker (cp rmp pc : Option ℚ) (hist : List ℚ) : Ticker :=
  { currentPrice := cp, regularMarketPrice := rmp, previousClose := pc,
    quoteType := none, shortName := none, history := hist }

/-- A provider oracle that resolves every symbol to a price of 0 (a
single zero close in the one-day history). -/
def quoteZeroFix : String → Except Unit Ticker := fun _ =>
  .ok (mkTicker none none none [0])

instance : IsTrans String strLe := by
  constructor
  intro a b c hab hbc
  rcases hab with hab | rfl
  · rcases hbc with hbc | rfl
    · exact Or.inl (trans_of (List.Lex (· < ·)) hab hbc)
    · exact Or.inl hab
  · exact hbc

instance : IsTotal String strLe := by
  constructor
  intro a b
  rcases (inferInstanceAs
      (IsTrichotomous (List Char) (List.Lex (· < ·)))).trichotomous a.data b.data
    with h | h | h
  · exact Or.inl (Or.inl h)
  · exact Or.inl (Or.inr (congrArg String.mk h))
  · exact Or.inr (Or.inl h)

instance : IsTrans SectorRow pctLe := by
  constructor
  intro a b c hab hbc
  exact le_trans hab hbc

instance : IsTotal SectorRow pctLe := by
  constructor
  intro a b
  exact le_total a.percentage b.percentage

instance : IsTrans CliSectorRow cliPctLe := by
  constructor
  intro a b c hab hbc
  exact le_trans hab hbc

instance : IsTotal CliSectorRow cliPctLe := by
  constructor
  intro a b
  exact le_total (a.percentage.getD 0) (b.percentage.getD 0)

/-- Membership in the sorted allocation table is membership in the
grouped rows. -/
theorem mem_sortPercentageDesc {r : SectorRow} {rows : List SectorRow} :
    r ∈ sortPercentageDesc rows ↔ r ∈ rows := by
  rw [sortPercentageDesc, List.mem_reverse,
    (List.perm_insertionSort pctLe rows.reverse).mem_iff, List.mem_reverse]

/-- Membership in the sorted CLI allocation table is membership in the
grouped rows. -/
theorem mem_of_mem_cliSortPercentageDesc {r : CliSectorRow}
    {rows : List CliSectorRow} (h : r ∈ cliSortPercentageDesc rows) :
    r ∈ rows := by
  unfold cliSortPercentageDesc at h
  rcases List.mem_append.mp h with h | h
  · rw [List.mem_reverse, (List.perm_insertionSort cliPctLe _).mem_iff,
      List.mem_reverse] at h
    exact List.mem_of_mem_filter h
  · exact List.mem_of_mem_filter h

theorem isPre_iff : ∀ {n h : List Char}, isPre n h = true ↔ ∃ q, h = n ++ q := by
  intro n
  induction n with
  | nil =>
    intro h
    simp [isPre]
  | cons a n ih =>
    intro h
    cases h with
    | nil => simp [isPre]
    | cons b t =>
      simp only [isPre, Bool.and_eq_true, decide_eq_true_eq, ih, List.cons_append,
        List.cons.injEq]
      constructor
      · rintro ⟨rfl, q, rfl⟩
        exact ⟨q, rfl, rfl⟩
      · rintro ⟨q, rfl, rfl⟩
        exact ⟨rfl, q, rfl⟩

theorem containsSub_iff : ∀ {n h : List Char},
    containsSub n h = true ↔ ∃ p q, h = p ++ n ++ q := by
  intro n h
  induction h with
  | nil =>
    simp only [containsSub, List.isEmpty_iff]
    constructor
    · rintro rfl
      exact ⟨[], [], rfl⟩
    · rintro ⟨p, q, hpq⟩
      rcases List.append_eq_nil.mp (List.append_eq_nil.mp hpq.symm).1 with ⟨_, h2⟩
      exact h2
  | cons b t ih =>
    simp only [containsSub, Bool.or_eq_true, isPre_iff, ih]
    constructor
    · rintro (⟨q, hq⟩ | ⟨p, q, rfl⟩)
      · exact ⟨[], q, by simpa using hq⟩
      · exact ⟨b :: p, q, rfl⟩
    · rintro ⟨p, q, hpq⟩
      cases p with
      | nil =>
        exact Or.inl ⟨q, by simpa using hpq⟩
      | cons x p =>
        rcases List.cons.injEq x (p ++ n ++ q) b t ▸ hpq.symm with ⟨rfl, rfl⟩
        exact Or.inr ⟨p, q, rfl⟩

theorem containsSub_trans {a b c : List Char} (h1 : containsSub a b = true)
    (h2 : containsSub b c = true) : containsSub a c = true := by
  rcases containsSub_iff.mp h1 with ⟨p, q, rfl⟩
  rcases containsSub_iff.mp h2 with ⟨r, s, rfl⟩
  exact containsSub_iff.mpr ⟨r ++ p, q ++ s, by simp⟩

/-- A keyword occurring inside another keyword: any hit for the longer
one is a hit for the shorter one. -/
theorem pyIn_mono {a b : String} (hab : pyIn a b = true) {c : String}
    (hbc : pyIn b c = true) : pyIn a c = true :=
  containsSub_trans hab hbc

/-- The refresh loop is a per-row map: each iteration reads and writes
only its own row. -/
theorem update_portfolio_prices_map (quote : String → Except Unit Ticker)
    (now : String) (df : List Holding) :
    update_portfolio_prices quote now df = df.map fun row =>
      match get_price (quote row.symbol) with
      | some price =>
        if price = 0 then row
        else { row with currentPrice := price, totalValue := price * row.shares,
                        lastUpdated := some now }
      | none => row := by
  unfold update_portfolio_prices
  by_cases h : df = []
  · subst h
    rfl
  · rw [if_neg h]

theorem valueInvariant_updateFirstMatching {df : List Holding}
    (p : PositionData) (h : valueInvariant df) :
    valueInvariant (updateFirstMatching (get_position_data p) df) := by
  induction df with
  | nil =>
    intro r hr
    simp [updateFirstMatching] at hr
  | cons a t ih =>
    intro r hr
    simp only [updateFirstMatching] at hr
    by_cases hsym : a.symbol = (get_position_data p).symbol
    · rw [if_pos hsym] at hr
      rcases List.mem_cons.mp hr with rfl | hrt
      · show (get_position_data p).totalValue =
          (get_position_data p).currentPrice * (get_position_data p).shares
        rfl
      · exact h r (List.mem_cons_of_mem _ hrt)
    · rw [if_neg hsym] at hr
      rcases List.mem_cons.mp hr with rfl | hrt
      · exact h r (List.mem_cons_self _ _)
      · exact ih (fun x hx => h x (List.mem_cons_of_mem _ hx)) r hrt

/-! ### Claim theorems -/

/-- C8: on the empty holdings table the sector allocation computation
returns an empty allocation result (and, being a total function, raises
no error). -/
theorem calculate_sector_allocation_empty :
    calculate_sector_allocation [] = [] := rfl

/-- C4 counterexample: on a table whose total value is zero the CLI
version of `calculate_sector_allocation` divides by the zero total, so the one
sector row it returns carries an undefined (NaN) percentage instead of
the claimed 0. -/
theorem cli_zero_total_nan_counterexample :
    totalValueSum [hZero] = 0 ∧
    (cli_calculate_sector_allocation [hZero]).map (·.percentage) = [none] := by
  with_unfolding_all decide

/-- C4 (amended): the GUI engine function `calculate_sector_allocation` guards
the zero-total case and defines every returned percentage as 0, with no
division; the CLI duplicate divides by the total unconditionally and its
percentages are undefined (NaN) whenever the total is zero. -/
theorem zero_total_percentage_defined :
    (∀ df : List Holding, totalValueSum df = 0 →
      ∀ r ∈ calculate_sector_allocation df, r.percentage = 0) ∧
    (∀ df : List Holding, totalValueSum df = 0 →
      ∀ r ∈ cli_calculate_sector_allocation df, r.percentage = none) := by
  constructor
  · intro df h r hr
    by_cases hdf : df = []
    · rw [hdf] at hr
      simp [calculate_sector_allocation] at hr
    · unfold calculate_sector_allocation at hr
      rw [if_neg hdf] at hr
      rcases List.mem_map.mp (mem_sortPercentageDesc.mp hr) with ⟨s, _, rfl⟩
      simp [h]
  · intro df h r hr
    unfold cli_calculate_sector_allocation at hr
    rcases List.mem_map.mp (mem_of_mem_cliSortPercentageDesc hr) with ⟨s, _, rfl⟩
    simp [h]

/-- C4 witness: the amended zero-total theorem applied to the concrete
zero-valued table. -/
theorem zero_total_percentage_defined_witness :
    totalValueSum [hZero] = 0 ∧
    (∀ r ∈ calculate_sector_allocation [hZero], r.percentage = 0) := by
  refine ⟨?_, zero_total_percentage_defined.1 [hZero] ?_⟩ <;>
    with_unfolding_all decide

/-- C10: `get_etf_sector_classification` is total over provider failure:
a raised provider exception and a missing short name both yield the
generic `"ETF"` label rather than an error. -/
theorem etf_classification_total_on_failure :
    get_etf_sector_classification (.error ()) = "ETF" ∧
    ∀ t : Ticker,
      get_etf_sector_classification (.ok { t with shortName := none }) = "ETF" := by
  refine ⟨rfl, ?_⟩
  intro t
  cases t
  rfl

/-- C3: evaluating the `has_full_info` import branch at a concrete input:
an existing one-row table, one imported row, and a store holding the
existing table.  The line-724 assignment `self.portfolio_df = self` discards the
concatenated table, the save of the widget object fails, and the
persisted store still lacks the imported row — the append-and-persist the
spec documents never happens. -/
theorem bulk_import_full_info_discards_rows :
    process_imported_data_full (some [hAlpha]) [hBeta] [hAlpha] =
      (DfHolder.widget, false, [hAlpha]) ∧ hBeta ∉ [hAlpha] := by
  with_unfolding_all decide

/-- C1: `total_value = current_price * shares` holds for every row after
a price refresh (given it held before: rows whose fetch fails keep their
old fields) and after every add/replace merge of a position — each
operation that writes `shares` or `current_price` writes the recomputed
`total_value` in the same step. -/
theorem refresh_and_merge_value_invariant :
    (∀ (quote : String → Except Unit Ticker) (now : String) (df : List Holding),
      valueInvariant df → valueInvariant (update_portfolio_prices quote now df)) ∧
    (∀ (df : List Holding) (p : PositionData) (choice : MergeChoice),
      valueInvariant df → valueInvariant (add_position (some df) p choice)) ∧
    (∀ (p : PositionData) (choice : MergeChoice),
      valueInvariant (add_position none p choice)) := by
  refine ⟨?_, ?_, ?_⟩
  · intro quote now df h r' hr'
    rw [update_portfolio_prices_map] at hr'
    rcases List.mem_map.mp hr' with ⟨r, hr, rfl⟩
    rcases hgp : get_price (quote r.symbol) with _ | price
    · simpa [hgp] using h r hr
    · by_cases hp : price = 0
      · simpa [hgp, hp] using h r hr
      · simp [hgp, hp]
  · intro df p choice h r hr
    simp only [add_position] at hr
    cases choice with
    | update =>
      split at hr
      · exact valueInvariant_updateFirstMatching p h r hr
      · rcases List.mem_append.mp hr with hr | hr
        · exact h r hr
        · rcases List.mem_singleton.mp hr with rfl
          rfl
    | addNew =>
      split at hr <;> rcases List.mem_append.mp hr with hr | hr
      · exact h r hr
      · rcases List.mem_singleton.mp hr with rfl
        rfl
      · exact h r hr
      · rcases List.mem_singleton.mp hr with rfl
        rfl
    | cancel =>
      split at hr
      · exact h r hr
      · rcases List.mem_append.mp hr with hr | hr
        · exact h r hr
        · rcases List.mem_singleton.mp hr with rfl
          rfl
  · intro p choice r hr
    simp only [add_position] at hr
    rcases List.mem_singleton.mp hr with rfl
    rfl

/-- C1 witness: the refresh conjunct applied to a concrete one-row
table that satisfies the invariant. -/
theorem refresh_and_merge_value_invariant_witness :
    valueInvariant (update_portfolio_prices quoteFix ("t1") [hZero]) := by
  refine refresh_and_merge_value_invariant.1 quoteFix ("t1") [hZero] ?_
  intro r hr
  rcases List.mem_singleton.mp hr with rfl
  with_unfolding_all decide

/-- C2: the refresh keeps row count, order and the symbol column intact;
rows whose fetch fails (or resolves falsy) are unchanged in every field,
and rows whose fetch succeeds change exactly `current_price`,
`total_value` (price times shares) and `last_updated` — the failure of
one symbol never blocks the update of another row, since each row is handled
independently. -/
theorem refresh_prices_frame (quote : String → Except Unit Ticker)
    (now : String) (df : List Holding) :
    (update_portfolio_prices quote now df).map (·.symbol) = df.map (·.symbol) ∧
    List.Forall₂ (fun r r' : Holding =>
      (truthyQ (get_price (quote r.symbol)) = false → r' = r) ∧
      (∀ p : ℚ, get_price (quote r.symbol) = some p → p ≠ 0 →
        r'.symbol = r.symbol ∧ r'.company = r.company ∧ r'.sector = r.sector ∧
        r'.shares = r.shares ∧ r'.currentPrice = p ∧
        r'.totalValue = p * r.shares ∧ r'.lastUpdated = some now))
      df (update_portfolio_prices quote now df) := by
  rw [update_portfolio_prices_map]
  constructor
  · rw [List.map_map]
    refine List.map_congr_left ?_
    intro r _
    simp only [Function.comp_apply]
    rcases hgp : get_price (quote r.symbol) with _ | p
    · rfl
    · by_cases hp : p = 0 <;> simp [hp]
  · rw [List.forall₂_map_right_iff]
    refine List.forall₂_same.mpr ?_
    intro r hr
    constructor
    · intro hfalse
      rcases hgp : get_price (quote r.symbol) with _ | p
      · rfl
      · rw [hgp] at hfalse
        have hp : p = 0 := by simpa [truthyQ] using hfalse
        simp [hp]
    · intro p hgp hp
      rw [hgp]
      simp [hp]

/-- C2 witness: the frame theorem applied to a concrete table where one
symbol succeeds and the other fails. -/
theorem refresh_prices_frame_witness :
    (update_portfolio_prices quoteFix ("t3") [hAlpha, hZero]).map (·.symbol) =
      [hAlpha, hZero].map (·.symbol) :=
  (refresh_prices_frame quoteFix ("t3") [hAlpha, hZero]).1

/-- C9 counterexample: with the `info` price fields absent, a one-day
history whose close is 0, and a previous close of 5, `get_price` returns
the 0 close instead of skipping it and falling through to 5 — the
history stage does not treat 0 like a failed fetch. -/
theorem get_price_history_zero_counterexample :
    get_price (.ok (mkTicker none none (some 5) [0])) = some 0 ∧
    (0 : ℚ) ≠ 5 := by
  with_unfolding_all decide

/-- C9 (amended): the refresh loop treats a resolved price of 0 exactly
like a failed fetch (the row keeps all its fields), and the
`currentPrice`, `regularMarketPrice` and `previousClose` stages of
`get_price` skip a fetched 0 and fall through — but the history stage
returns the last close whenever the one-day history is nonempty, even
when that close is 0. -/
theorem price_zero_treated_as_failure :
    (∀ (quote : String → Except Unit Ticker) (now : String) (df : List Holding),
      List.Forall₂ (fun r r' : Holding =>
        get_price (quote r.symbol) = some 0 → r' = r)
        df (update_portfolio_prices quote now df)) ∧
    (∀ (hist : List ℚ) (pc : Option ℚ),
      get_price (.ok (mkTicker (some 0) (some 0) pc hist)) =
      get_price (.ok (mkTicker none none pc hist))) ∧
    (get_price (.ok (mkTicker none none (some 0) [])) = none) ∧
    (∀ (hs : List ℚ) (pc : Option ℚ),
      get_price (.ok (mkTicker none none pc (hs ++ [0]))) = some 0) := by
  refine ⟨?_, ?_, ?_, ?_⟩
  · intro quote now df
    rw [update_portfolio_prices_map, List.forall₂_map_right_iff]
    refine List.forall₂_same.mpr ?_
    intro r hr h0
    rw [h0]
    simp
  · intro hist pc
    rfl
  · rfl
  · intro hs pc
    simp [get_price, truthyQ, mkTicker, List.getLast?_concat]

/-- C9 witness: a provider that resolves every symbol to a zero close
leaves the concrete table unchanged row by row. -/
theorem price_zero_treated_as_failure_witness :
    get_price (quoteZeroFix ("AAA")) = some 0 ∧
    List.Forall₂ (fun r r' : Holding =>
      get_price (quoteZeroFix r.symbol) = some 0 → r' = r)
      [hAlpha] (update_portfolio_prices quoteZeroFix ("t2") [hAlpha]) :=
  ⟨by with_unfolding_all decide,
   price_zero_treated_as_failure.1 quoteZeroFix ("t2") [hAlpha]⟩

/-- C6 counterexample: the symbol `"WOLF"` with quote type `"EQUITY"` —
metadata that unambiguously identifies a plain stock — is classified
`"ETF"` by the source because of the trailing letter F, while the spec
metadata-first rule of the spec classifies it `"Stock"`: the suffix convention
overrides unambiguous metadata. -/
theorem security_type_metadata_override_counterexample :
    get_security_type ("WOLF") (.ok tEquity) = "ETF" ∧
    classify_security_spec ("WOLF") (.ok tEquity) = "Stock" := by
  with_unfolding_all decide

/-- C6 (amended): `get_security_type` combines the metadata check and the
suffix convention disjunctively at each step instead of consulting the
suffix only when metadata is absent or ambiguous: a trailing letter F forces
`"ETF"` whatever the quote type says, a trailing letter X forces
`"Mutual Fund"` whenever the ETF step did not match, an etf quote
type yields `"ETF"`, the default is `"Stock"`, and a failed provider call
yields `"Stock"`. -/
theorem security_type_suffix_disjunctive :
    (∀ s : String, get_security_type s (.error ()) = "Stock") ∧
    (∀ (s : String) (t : Ticker), lastIs s ('F') = true →
      get_security_type s (.ok t) = "ETF") ∧
    (∀ (s : String) (t : Ticker),
      pyIn ("etf") (pyLower (t.quoteType.getD (""))) = true →
      get_security_type s (.ok t) = "ETF") ∧
    (∀ (s : String) (t : Ticker),
      pyIn ("etf") (pyLower (t.quoteType.getD (""))) = false →
      lastIs s ('F') = false →
      lastIs s ('X') = true →
      get_security_type s (.ok t) = "Mutual Fund") ∧
    (∀ (s : String) (t : Ticker),
      pyIn ("etf") (pyLower (t.quoteType.getD (""))) = false →
      lastIs s ('F') = false →
      pyIn ("mutualFund") (pyLower (t.quoteType.getD (""))) = false →
      lastIs s ('X') = false →
      pyIn ("index") (pyLower (t.quoteType.getD (""))) = false →
      get_security_type s (.ok t) = "Stock") := by
  refine ⟨fun s => rfl, ?_, ?_, ?_, ?_⟩
  · intro s t hF
    simp [get_security_type, hF]
  · intro s t hq
    simp [get_security_type, hq]
  · intro s t h1 h2 h3
    simp [get_security_type, h1, h2, h3]
  · intro s t h1 h2 h3 h4 h5
    simp [get_security_type, h1, h2, h3, h4, h5]

/-- C6 witness: the trailing-letter-F conjunct applied to the concrete
stock-metadata ticker, and the trailing-letter-X conjunct applied to a
symbol ending in X with the same unambiguous stock metadata. -/
theorem security_type_suffix_disjunctive_witness :
    (lastIs ("WOLF") ('F') = true ∧
     get_security_type ("WOLF") (.ok tEquity) = "ETF") ∧
    (lastIs ("BOX") ('X') = true ∧
     get_security_type ("BOX") (.ok tEquity) = "Mutual Fund") :=
  ⟨⟨by decide, security_type_suffix_disjunctive.2.1 ("WOLF") tEquity (by decide)⟩,
   ⟨by decide, security_type_suffix_disjunctive.2.2.2.1 ("BOX") tEquity
      (by decide) (by decide) (by decide)⟩⟩

/-- Any name containing `"technology"` contains `"tech"`, so the three
technology keywords of the source decide exactly like the two of the spec. -/
theorem techCond_eq (L : String) :
    (pyIn ("nasdaq") L || (pyIn ("tech") L || pyIn ("technology") L)) =
    (pyIn ("nasdaq") L || pyIn ("tech") L) := by
  cases h2 : pyIn ("technology") L with
  | false => simp [h2]
  | true =>
    have h3 : pyIn ("tech") L = true := pyIn_mono (by decide) h2
    simp [h2, h3]

/-- Any name containing `"sp500"` contains `"500"`, so the four index
keywords of the source decide exactly like the three of the spec. -/
theorem sp500Cond_eq (L : String) :
    (pyIn ("s&p") L || (pyIn ("sp500") L || (pyIn ("500") L ||
      pyIn ("total market") L))) =
    (pyIn ("s&p") L || (pyIn ("500") L || pyIn ("total market") L)) := by
  cases h2 : pyIn ("sp500") L with
  | false => simp [h2]
  | true =>
    have h3 : pyIn ("500") L = true := pyIn_mono (by decide) h2
    simp [h2, h3]

/-- Any name containing `"healthcare"` contains `"health"`. -/
theorem healthCond_eq (L : String) :
    (pyIn ("health") L || pyIn ("healthcare") L) = pyIn ("health") L := by
  cases h2 : pyIn ("healthcare") L with
  | false => simp [h2]
  | true =>
    have h3 : pyIn ("health") L = true := pyIn_mono (by decide) h2
    simp [h2, h3]

/-- C7: the keyword chain of the source IS the ordered rule table of the
spec —
for every short name the classification equals the first matching bucket
of `etfBuckets` in its fixed priority order — and the short name
"Nasdaq 100 Technology Index Fund" is classified "Technology ETF" (the
technology bucket is tried before the generic index bucket). -/
theorem etf_sector_first_bucket :
    (∀ (t : Ticker) (name : String),
      get_etf_sector_classification (.ok { t with shortName := some name }) =
        classify_etf_sector_spec name) ∧
    get_etf_sector_classification (.ok tNasdaqFund) = "Technology ETF" := by
  constructor
  · intro t name
    cases t
    simp only [get_etf_sector_classification, classify_etf_sector_spec, etfBuckets,
      firstBucket, List.any_cons, List.any_nil, Bool.or_false, Option.getD_some]
    rw [techCond_eq, sp500Cond_eq, healthCond_eq]
  · with_unfolding_all decide

end PortfolioTracker
